import Mathlib

/-!
Verification of the Lua bridge for stack graphs (src/stack-graphs/src/lua.rs).

The bridge exposes a mutable, arena-backed stack graph to Lua scripts through
handle-carrying proxy values.  The graph library itself (arenas, interning,
per-node metadata storage) lives outside the sources under verification; those
collaborator operations are modelled from the specification, and each such
definition is marked with a doc comment starting with the words
"Modelled from the spec".  Every other definition is a direct shallow
embedding of the corresponding function in lua.rs.

Handles are modelled as natural numbers: node handle h denotes the h-th node
of the graph (1-based, matching the arena whose slot 0 is reserved), so the
arena length seen by the Rust code is one more than the number of nodes.
-/

/-- Column offset triple of a source position (lsp_positions::Offset). -/
structure Offset where
  utf8_offset : Nat
  utf16_offset : Nat
  grapheme_offset : Nat
deriving DecidableEq

/-- Byte-offset pair delimiting a line (lsp_positions::Range); the second
field is named end in the Rust source. -/
structure LineRange where
  start : Nat
  end_ : Nat
deriving DecidableEq

/-- Source position (lsp_positions::Position). -/
structure Position where
  line : Nat
  column : Offset
  containing_line : LineRange
  trimmed_line : LineRange
deriving DecidableEq

/-- Source span (lsp_positions::Span); the second field is named end in the
Rust source. -/
structure Span where
  start : Position
  end_ : Position
deriving DecidableEq

/-- Modelled from the spec: every span field defaults to zero. -/
def Offset.default : Offset := { utf8_offset := 0, utf16_offset := 0, grapheme_offset := 0 }

/-- Modelled from the spec: every span field defaults to zero. -/
def LineRange.default : LineRange := { start := 0, end_ := 0 }

/-- Modelled from the spec: every span field defaults to zero. -/
def Position.default : Position :=
  { line := 0, column := Offset.default, containing_line := LineRange.default,
    trimmed_line := LineRange.default }

/-- Modelled from the spec: the all-zero span, the value of Span::default(). -/
def Span.default : Span := { start := Position.default, end_ := Position.default }

/-- Node identifier: an optional file handle and a per-file local id. -/
structure NodeID where
  file : Option Nat
  local_id : Nat
deriving DecidableEq

/-- The seven node kinds plus the two singleton kinds.  Push and pop kinds
carry a symbol handle; the scoped push kind carries the id of its scope
node; scope kinds carry their is-exported flag. -/
inductive NodeKind where
  | root
  | jumpTo
  | pushSymbol (symbol : Nat) ( is_reference : Bool)
  | pushScopedSymbol (symbol : Nat) (scope : NodeID) ( is_reference : Bool)
  | popSymbol (symbol : Nat) (is_definition : Bool)
  | popScopedSymbol (symbol : Nat) (is_definition : Bool)
  | dropScopes
  | scope (is_exported : Bool)
deriving DecidableEq

/-- A node of the stack graph. -/
structure Node where
  id : NodeID
  kind : NodeKind
deriving DecidableEq

/-- The file of a node, read off its id (Node::file). -/
def Node.file (n : Node) : Option Nat := n.id.file

/-- Whether a node is an exported scope node (Node::is_exported_scope). -/
def Node.is_exported_scope (n : Node) : Bool :=
  match n.kind with
  | NodeKind.scope exported => exported
  | _ => false

/-- Per-node optional metadata record (SourceInfo): source span, definiens
span, and an optional syntax-type string handle. -/
structure SourceInfo where
  span : Span
  definiens_span : Span
  syntax_type : Option Nat
deriving DecidableEq

/-- Modelled from the spec: the zero-valued metadata record created on first
mutable access (SourceInfo::default()). -/
def SourceInfo.default : SourceInfo :=
  { span := Span.default, definiens_span := Span.default, syntax_type := none }

/-- A directed edge with its integer precedence. -/
structure Edge where
  source : Nat
  sink : Nat
  precedence : Int
deriving DecidableEq

/-- The stack graph state: interned files, the node arena (handle h is the
h-th entry, 1-based), interned symbols and strings, the edges in insertion
order, per-node metadata and debug entries, and per-file local-id counters. -/
structure StackGraph where
  files : List String
  nodes : List Node
  symbols : List String
  strings : List String
  edges : List Edge
  source_infos : List (Nat × SourceInfo)
  debug_infos : List (Nat × List (Nat × Nat))
  next_local_id : List (Nat × Nat)
deriving DecidableEq

/-- Modelled from the spec: the always-present root singleton node. -/
def rootNode : Node := { id := { file := none, local_id := 1 }, kind := NodeKind.root }

/-- Modelled from the spec: the always-present jump-to singleton node. -/
def jumpToNode : Node := { id := { file := none, local_id := 2 }, kind := NodeKind.jumpTo }

/-- Modelled from the spec: the fixed handle of the root node (StackGraph::root_node). -/
def rootHandle : Nat := 1

/-- Modelled from the spec: the fixed handle of the jump-to node (StackGraph::jump_to_node). -/
def jumpToHandle : Nat := 2

/-- Modelled from the spec: a fresh graph holding only the two singleton nodes. -/
def StackGraph.new : StackGraph :=
  { files := [], nodes := [rootNode, jumpToNode], symbols := [], strings := [],
    edges := [], source_infos := [], debug_infos := [], next_local_id := [] }

/-- Association-list read, keyed by Nat. -/
def assocGet {α : Type} : List (Nat × α) → Nat → Option α
  | [], _ => none
  | (k', v') :: rest, k => if k' = k then some v' else assocGet rest k

/-- Association-list write, keyed by Nat: replace the first binding of the key
or append a new one. -/
def assocSet {α : Type} : List (Nat × α) → Nat → α → List (Nat × α)
  | [], k, v => [(k, v)]
  | (k', v') :: rest, k, v =>
    if k' = k then (k, v) :: rest else (k', v') :: assocSet rest k v

/-- Modelled from the spec: interning into a list of strings — return the
index of an existing equal entry, or append and return the new index. -/
def internIn : List String → String → List String × Nat
  | [], s => ([s], 0)
  | t :: ts, s =>
    if t = s then (t :: ts, 0)
    else
      let r := internIn ts s
      (t :: r.1, r.2 + 1)

/-- The arena length the Rust code reads as graph.nodes.len(): one more than
the number of nodes, because arena slot 0 is reserved. -/
def nodesLen (g : StackGraph) : Nat := g.nodes.length + 1

/-- Dereference a node handle: valid handles are 1 through the node count. -/
def getNode (g : StackGraph) (h : Nat) : Option Node :=
  if hv : 1 ≤ h ∧ h ≤ g.nodes.length then some (g.nodes.get ⟨h - 1, by omega⟩) else none

/-- The stored file of the node a handle denotes, when the handle is valid. -/
def nodeFile (g : StackGraph) (h : Nat) : Option Nat :=
  (getNode g h).bind Node.file

/-- The file filter used by the Lua bridge on a candidate handle:
graph[handle].file().map(|f| f == file).unwrap_or(false). -/
def matchesFile (g : StackGraph) (f : Nat) (h : Nat) : Bool :=
  ((nodeFile g h).map (fun f2 => f2 == f)).getD false

/-- Modelled from the spec: symbol interning (StackGraph::add_symbol). -/
def addSymbol (g : StackGraph) (s : String) : StackGraph × Nat :=
  let r := internIn g.symbols s
  ({ g with symbols := r.1 }, r.2)

/-- Modelled from the spec: string interning (StackGraph::add_string). -/
def addString (g : StackGraph) (s : String) : StackGraph × Nat :=
  let r := internIn g.strings s
  ({ g with strings := r.1 }, r.2)

/-- Resolve an interned string handle to its text. -/
def getString (g : StackGraph) (i : Nat) : String :=
  (g.strings[i]?).getD ""

/-- Modelled from the spec: idempotent get-or-create of a file by name
(StackGraph::get_or_create_file). -/
def get_or_create_file (g : StackGraph) (name : String) : StackGraph × Nat :=
  let r := internIn g.files name
  ({ g with files := r.1 }, r.2)

/-- Modelled from the spec: allocation of a fresh per-file-unique node
identifier (StackGraph::new_node_id). -/
def new_node_id (g : StackGraph) (file : Nat) : StackGraph × NodeID :=
  let next := (assocGet g.next_local_id file).getD 0
  ({ g with next_local_id := assocSet g.next_local_id file (next + 1) },
   { file := some file, local_id := next })

/-- Modelled from the spec: node construction in the graph library — append
the node and return its handle, failing on an identifier collision. -/
def addNodeChecked (g : StackGraph) (n : Node) : Option (StackGraph × Nat) :=
  if g.nodes.any (fun m => m.id = n.id) then none
  else some ({ g with nodes := g.nodes ++ [n] }, g.nodes.length + 1)

/-- Modelled from the spec: edge insertion (StackGraph::add_edge) — append to
the edge list; multiple edges between the same pair stay distinct. -/
def addEdge (g : StackGraph) (e : Edge) : StackGraph :=
  { g with edges := g.edges ++ [e] }

/-- Modelled from the spec: the outgoing edges of a node
(StackGraph::outgoing_edges), in insertion order. -/
def outgoingEdges (g : StackGraph) (h : Nat) : List Edge :=
  g.edges.filter (fun e => e.source == h)

/-- The half-open handle interval [s, s + n), in increasing order. -/
def handleRange : Nat → Nat → List Nat
  | _, 0 => []
  | s, n + 1 => s :: handleRange (s + 1) n

/-- Modelled from the spec: the nodes of a file in handle order
(StackGraph::nodes_for_file). -/
def nodes_for_file (g : StackGraph) (f : Nat) : List Nat :=
  (handleRange 1 g.nodes.length).filter (fun h => nodeFile g h == some f)

/-- The number of edges in the graph. -/
def edgeCount (g : StackGraph) : Nat := g.edges.length

/-- The metadata record of a node, absent until first created
(StackGraph::source_info). -/
def source_info (g : StackGraph) (h : Nat) : Option SourceInfo :=
  assocGet g.source_infos h

/-- Modelled from the spec: StackGraph::source_info_mut — get the node's
metadata record, creating a zero-valued default one if absent, and update it. -/
def modifySourceInfo (g : StackGraph) (h : Nat) (upd : SourceInfo → SourceInfo) : StackGraph :=
  { g with source_infos :=
      assocSet g.source_infos h (upd ((source_info g h).getD SourceInfo.default)) }

/-- Lua method set_span: source_info_mut(node).span = span. -/
def set_span (g : StackGraph) (h : Nat) (s : Span) : StackGraph :=
  modifySourceInfo g h (fun si => { si with span := s })

/-- Lua method set_definiens_span: source_info_mut(node).definiens_span = span. -/
def set_definiens_span (g : StackGraph) (h : Nat) (s : Span) : StackGraph :=
  modifySourceInfo g h (fun si => { si with definiens_span := s })

/-- Lua method set_syntax_type: intern the string, then
source_info_mut(node).syntax_type = some(handle). -/
def set_syntax_type (g : StackGraph) (h : Nat) (s : String) : StackGraph :=
  let r := addString g s
  modifySourceInfo r.1 h (fun si => { si with syntax_type := some r.2 })

/-- Lua method span: nil when the node has no metadata record, else the
stored span. -/
def node_span (g : StackGraph) (h : Nat) : Option Span :=
  match source_info g h with
  | none => none
  | some si => some si.span

/-- Lua method definiens_span: nil when the node has no metadata record, else
the stored definiens span. -/
def node_definiens_span (g : StackGraph) (h : Nat) : Option Span :=
  match source_info g h with
  | none => none
  | some si => some si.definiens_span

/-- Lua method syntax_type: nil when the node has no metadata record or the
record's syntax type is unset, else the resolved string. -/
def node_syntax_type (g : StackGraph) (h : Nat) : Option String :=
  match source_info g h with
  | none => none
  | some si =>
    match si.syntax_type with
    | none => none
    | some st => some (getString g st)

/-- The stored debug entries of a node, as interned handles, absent until
first created (StackGraph::node_debug_info). -/
def node_debug_info (g : StackGraph) (h : Nat) : Option (List (Nat × Nat)) :=
  assocGet g.debug_infos h

/-- The stored debug entries of a node with key and value handles resolved to
their text, in storage order. -/
def node_debug_info_entries (g : StackGraph) (h : Nat) : Option (List (String × String)) :=
  (node_debug_info g h).map (fun es => es.map (fun p => (getString g p.1, getString g p.2)))

/-- Lua method set_debug_info: intern key and value, then
node_debug_info_mut(node).add(k, v), which appends to the entry list
(creating an empty list first when absent). -/
def set_debug_info (g : StackGraph) (h : Nat) (k v : String) : StackGraph :=
  let r1 := addString g k
  let r2 := addString r1.1 v
  let g2 := r2.1
  { g2 with debug_infos :=
      assocSet g2.debug_infos h (((assocGet g2.debug_infos h).getD []) ++ [(r1.2, r2.2)]) }

/-- Modelled from the spec: assignment into a table of the scripting runtime,
a string-keyed map — setting an existing key overwrites its value. -/
def tableSet : List (String × String) → String → String → List (String × String)
  | [], k, v => [(k, v)]
  | (k', v') :: rest, k, v =>
    if k' = k then (k, v) :: rest else (k', v') :: tableSet rest k v

/-- Modelled from the spec: key lookup in a table of the scripting runtime. -/
def lookupStr : List (String × String) → String → Option String
  | [], _ => none
  | (k', v') :: rest, k => if k' = k then some v' else lookupStr rest k

/-- The value of the last entry with the given key in an entry list. -/
def lastVal : List (String × String) → String → Option String
  | [], _ => none
  | (k', v') :: rest, k =>
    match lastVal rest k with
    | some v => some v
    | none => if k' = k then some v' else none

/-- Lua method debug_info: nil when the node has no debug record, else a
table built by setting each stored entry in order. -/
def node_debug_info_table (g : StackGraph) (h : Nat) : Option (List (String × String)) :=
  match node_debug_info g h with
  | none => none
  | some es =>
    some (es.foldl (fun acc p => tableSet acc (getString g p.1) (getString g p.2)) [])

/-- Lua method definition_node: intern the symbol, allocate a node id, add a
pop-symbol node with is_definition = true. -/
def definition_node (g : StackGraph) (file : Nat) (symbol : String) :
    StackGraph × Except String Nat :=
  let r1 := addSymbol g symbol
  let r2 := new_node_id r1.1 file
  match addNodeChecked r2.1 { id := r2.2, kind := NodeKind.popSymbol r1.2 true } with
  | some r3 => (r3.1, Except.ok r3.2)
  | none => (r2.1, Except.error "Node ID collision")

/-- Lua method internal_scope_node: allocate a node id, add a scope node with
is_exported = false. -/
def internal_scope_node (g : StackGraph) (file : Nat) : StackGraph × Except String Nat :=
  let r := new_node_id g file
  match addNodeChecked r.1 { id := r.2, kind := NodeKind.scope false } with
  | some r2 => (r2.1, Except.ok r2.2)
  | none => (r.1, Except.error "Node ID collision")

/-- Lua method exported_scope_node: allocate a node id, add a scope node with
is_exported = true. -/
def exported_scope_node (g : StackGraph) (file : Nat) : StackGraph × Except String Nat :=
  let r := new_node_id g file
  match addNodeChecked r.1 { id := r.2, kind := NodeKind.scope true } with
  | some r2 => (r2.1, Except.ok r2.2)
  | none => (r.1, Except.error "Node ID collision")

/-- Lua method push_scoped_symbol_node: the scope operand must dereference to
an exported scope node, checked before any mutation; on success intern the
symbol, allocate a node id, and add the push-scoped-symbol node with
is_reference = false.  The result pairs the graph after the call with the
outcome reported to the script. -/
def push_scoped_symbol_node (g : StackGraph) (file : Nat) (symbol : String) (scope : Nat) :
    StackGraph × Except String Nat :=
  match getNode g scope with
  | none => (g, Except.error "invalid scope handle")
  | some scopeNode =>
    if scopeNode.is_exported_scope = false then
      (g, Except.error "Can only push exported scope nodes")
    else
      let scopeId := scopeNode.id
      let r1 := addSymbol g symbol
      let r2 := new_node_id r1.1 file
      match addNodeChecked r2.1
          { id := r2.2, kind := NodeKind.pushScopedSymbol r1.2 scopeId false } with
      | some r3 => (r3.1, Except.ok r3.2)
      | none => (r2.1, Except.error "Node ID collision")

/-- Lua method scoped_reference_node: identical to push_scoped_symbol_node
except that the node is added with is_reference = true. -/
def scoped_reference_node (g : StackGraph) (file : Nat) (symbol : String) (scope : Nat) :
    StackGraph × Except String Nat :=
  match getNode g scope with
  | none => (g, Except.error "invalid scope handle")
  | some scopeNode =>
    if scopeNode.is_exported_scope = false then
      (g, Except.error "Can only push exported scope nodes")
    else
      let scopeId := scopeNode.id
      let r1 := addSymbol g symbol
      let r2 := new_node_id r1.1 file
      match addNodeChecked r2.1
          { id := r2.2, kind := NodeKind.pushScopedSymbol r1.2 scopeId true } with
      | some r3 => (r3.1, Except.ok r3.2)
      | none => (r2.1, Except.error "Node ID collision")

/-- Lua method add_edge_from on node this: insert an edge from the other node
to this one (default precedence 0) and return a matching edge value. -/
def add_edge_from (g : StackGraph) (this other : Nat) (precedence : Option Int) :
    StackGraph × Edge :=
  let p := precedence.getD 0
  let g' := addEdge g { source := other, sink := this, precedence := p }
  (g', { source := other, sink := this, precedence := p })

/-- Lua method add_edge_to on node this: insert an edge from this node to the
other one (default precedence 0) and return a matching edge value. -/
def add_edge_to (g : StackGraph) (this other : Nat) (precedence : Option Int) :
    StackGraph × Edge :=
  let p := precedence.getD 0
  let g' := addEdge g { source := this, sink := other, precedence := p }
  (g', { source := this, sink := other, precedence := p })

/-- One step of the whole-graph node iterator: the candidate is the previous
handle plus one (zero standing for no previous handle), and the iterator is
exhausted exactly when the previous handle equals the current node count
minus one, both read fresh from the graph at this step. -/
def graphNodesNext (g : StackGraph) (prev : Option Nat) : Option Nat :=
  let prevIndex := match prev with | some h => h | none => 0
  if prevIndex = nodesLen g - 1 then none
  else some (prevIndex + 1)

/-- Unfold the whole-graph iterator from a previous handle; the fuel bounds
the number of yields and is in practice at least the node count. -/
def graphIterFrom (g : StackGraph) : Nat → Nat → List Nat
  | 0, _ => []
  | fuel + 1, prev =>
    match graphNodesNext g (some prev) with
    | none => []
    | some h => h :: graphIterFrom g fuel h

/-- The full sequence of handles yielded by a fresh whole-graph iteration. -/
def graphNodesList (g : StackGraph) : List Nat :=
  graphIterFrom g (nodesLen g) 0

/-- The scan loop of the file-filtered node iterator: starting at candidate
i, stop with nil when i reaches the node count, yield i when its node belongs
to the file, else try i + 1.  The fuel bounds the scan and is in practice the
node count, which the loop can never exceed. -/
def fileNextAux (g : StackGraph) (f : Nat) : Nat → Nat → Option Nat
  | 0, _ => none
  | fuel + 1, i =>
    if i = nodesLen g then none
    else if matchesFile g f i then some i
    else fileNextAux g f fuel (i + 1)

/-- One step of the file-filtered node iterator: scan forward from the
previous handle plus one (zero standing for no previous handle). -/
def fileNodesNext (g : StackGraph) (f : Nat) (prev : Option Nat) : Option Nat :=
  let prevIndex := match prev with | some h => h | none => 0
  fileNextAux g f (nodesLen g) (prevIndex + 1)

/-- Unfold the file-filtered iterator from a previous handle. -/
def fileIterFrom (g : StackGraph) (f : Nat) : Nat → Nat → List Nat
  | 0, _ => []
  | fuel + 1, prev =>
    match fileNodesNext g f (some prev) with
    | none => []
    | some h => h :: fileIterFrom g f fuel h

/-- The full sequence of handles yielded by a fresh file-filtered iteration. -/
def fileNodesList (g : StackGraph) (f : Nat) : List Nat :=
  fileIterFrom g f (nodesLen g) 0

/-- Lua method edges on a file: first the outgoing edges of the root node
whose sink belongs to the file, then the outgoing edges of the jump-to node
whose sink belongs to the file, then every outgoing edge of each node of the
file in handle order. -/
def fileEdges (g : StackGraph) (f : Nat) : List Edge :=
  ((outgoingEdges g rootHandle).filter (fun e => matchesFile g f e.sink))
    ++ ((outgoingEdges g jumpToHandle).filter (fun e => matchesFile g f e.sink))
    ++ ((nodes_for_file g f).map (fun n => outgoingEdges g n)).flatten

/-- Removal of the last character of a string (String::pop in the source). -/
def strPop (s : String) : String := String.mk s.data.dropLast

/-- The span fragment written by the node renderer, line:column-line:column
with utf8 column offsets. -/
def spanString (s : Span) : String :=
  toString s.start.line ++ ":" ++ toString s.start.column.utf8_offset ++ "-"
    ++ toString s.end_.line ++ ":" ++ toString s.end_.column.utf8_offset

/-- Modelled from the spec: the graph library's deterministic display form of
a node, without its closing bracket.  The full display form is bracketed and
always ends with a closing bracket. -/
def displayNodeBody (g : StackGraph) (h : Nat) : String :=
  match getNode g h with
  | none => "[unknown node"
  | some n =>
    match n.kind with
    | NodeKind.root => "[root"
    | NodeKind.jumpTo => "[jump to scope"
    | _ => "[node " ++ toString ((n.id.file).getD 0) ++ "(" ++ toString n.id.local_id ++ ")"

/-- Modelled from the spec: the graph library's deterministic display form of
a node (Node::display). -/
def displayNode (g : StackGraph) (h : Nat) : String := displayNodeBody g h ++ "]"

/-- The tostring metamethod of a node: start from the display form; when the
node has a metadata record, pop the trailing closing bracket, append the
syntax type in parentheses if set, the span after at if it differs from the
default span, the definiens span after def if it differs from the default
span, and push the closing bracket back. -/
def nodeToString (g : StackGraph) (h : Nat) : String :=
  let display := displayNode g h
  match source_info g h with
  | none => display
  | some si =>
    let d1 := strPop display
    let d2 :=
      match si.syntax_type with
      | some st => d1 ++ " (" ++ getString g st ++ ")"
      | none => d1
    let d3 := if si.span = Span.default then d2 else d2 ++ " at " ++ spanString si.span
    let d4 :=
      if si.definiens_span = Span.default then d3
      else d3 ++ " def " ++ spanString si.definiens_span
    d4 ++ "]"

/-- Modelled from the spec: the dynamic borrow state of the graph userdata —
free, borrowed shared some number of times, or borrowed exclusively. -/
inductive BorrowState where
  | available
  | sharedBorrow (count : Nat)
  | exclusiveBorrow
deriving DecidableEq

/-- Modelled from the spec: an exclusive borrow of the graph userdata can be
taken only when no other borrow is outstanding. -/
def canBorrowMut : BorrowState → Bool
  | BorrowState.available => true
  | _ => false

/-- The add_edge_from entry point as called from a script: first take the
exclusive borrow of the graph userdata; when another borrow is outstanding
this fails with a recoverable borrow error and the graph is untouched. -/
def add_edge_from_entry (st : BorrowState) (g : StackGraph) (this other : Nat)
    (precedence : Option Int) : StackGraph × Except String Edge :=
  if canBorrowMut st then
    let r := add_edge_from g this other precedence
    (r.1, Except.ok r.2)
  else (g, Except.error "error borrowing userdata")

/-- The file entry point as called from a script: first take the exclusive
borrow of the graph userdata; when another borrow is outstanding this fails
with a recoverable borrow error and the graph is untouched. -/
def file_entry (st : BorrowState) (g : StackGraph) (name : String) :
    StackGraph × Except String Nat :=
  if canBorrowMut st then
    let r := get_or_create_file g name
    (r.1, Except.ok r.2)
  else (g, Except.error "error borrowing userdata")

/-! Helper lemmas about interning, association lists, and handle ranges. -/

theorem internIn_getElem (l : List String) (s : String) :
    ((internIn l s).1)[(internIn l s).2]? = some s := by
  induction l with
  | nil => rfl
  | cons t ts ih =>
    by_cases h : t = s
    · simp [internIn, h]
    · simp [internIn, h, ih]

theorem internIn_keeps (l : List String) (s : String) (i : Nat) (x : String)
    (h : l[i]? = some x) : ((internIn l s).1)[i]? = some x := by
  induction l generalizing i with
  | nil => simp at h
  | cons t ts ih =>
    by_cases hts : t = s
    · simpa [internIn, hts] using h
    · cases i with
      | zero => simpa [internIn, hts] using h
      | succ j =>
        simp only [List.getElem?_cons_succ] at h
        simp only [internIn, if_neg hts, List.getElem?_cons_succ]
        exact ih j h

theorem assocGet_set_self {α : Type} (l : List (Nat × α)) (k : Nat) (v : α) :
    assocGet (assocSet l k v) k = some v := by
  induction l with
  | nil => simp [assocSet, assocGet]
  | cons p rest ih =>
    obtain ⟨k', v'⟩ := p
    by_cases h : k' = k
    · simp [assocSet, assocGet, h]
    · simp [assocSet, assocGet, h, ih]

theorem assocGet_set_other {α : Type} (l : List (Nat × α)) (k k' : Nat) (v : α)
    (h : k' ≠ k) : assocGet (assocSet l k v) k' = assocGet l k' := by
  have hne : ¬ k = k' := fun hh => h hh.symm
  induction l with
  | nil => simp [assocSet, assocGet, hne]
  | cons p rest ih =>
    obtain ⟨a, b⟩ := p
    by_cases ha : a = k
    · subst ha
      simp [assocSet, assocGet, hne]
    · simp [assocSet, assocGet, ha, ih]

theorem mem_handleRange {s n h : Nat} : h ∈ handleRange s n ↔ s ≤ h ∧ h < s + n := by
  induction n generalizing s with
  | zero => simp [handleRange]
  | succ m ih =>
    simp [handleRange, ih]
    omega

theorem handleRange_append (s m n : Nat) :
    handleRange s (m + n) = handleRange s m ++ handleRange (s + m) n := by
  induction m generalizing s with
  | zero => simp [handleRange]
  | succ m ih =>
    have h1 : m + 1 + n = (m + n) + 1 := by omega
    rw [h1]
    show s :: handleRange (s + 1) (m + n) = (s :: handleRange (s + 1) m) ++ handleRange (s + (m + 1)) n
    rw [ih (s + 1)]
    simp [Nat.add_assoc, Nat.add_comm 1 m]

theorem matchesFile_eq_true_iff (g : StackGraph) (f h : Nat) :
    matchesFile g f h = true ↔ nodeFile g h = some f := by
  unfold matchesFile
  cases hx : nodeFile g h with
  | none => simp
  | some a => simp [beq_iff_eq]

theorem nodeFile_some_bounds (g : StackGraph) (h f : Nat) (hx : nodeFile g h = some f) :
    1 ≤ h ∧ h ≤ g.nodes.length := by
  unfold nodeFile getNode at hx
  split at hx
  · assumption
  · simp at hx

theorem graphIterFrom_eq (g : StackGraph) (fuel : Nat) :
    ∀ prev : Nat, prev ≤ g.nodes.length → g.nodes.length - prev < fuel →
      graphIterFrom g fuel prev = handleRange (prev + 1) (g.nodes.length - prev) := by
  induction fuel with
  | zero => intro prev _ hf; omega
  | succ fu ih =>
    intro prev hle hf
    by_cases hend : prev = g.nodes.length
    · have hstop : graphNodesNext g (some prev) = none := by
        simp [graphNodesNext, nodesLen, hend]
      have h0 : g.nodes.length - prev = 0 := by omega
      simp [graphIterFrom, hstop, h0, handleRange]
    · have hlt : prev < g.nodes.length := by omega
      have hstep : graphNodesNext g (some prev) = some (prev + 1) := by
        simp only [graphNodesNext, nodesLen]
        rw [if_neg (by omega)]
      simp only [graphIterFrom, hstep]
      rw [ih (prev + 1) (by omega) (by omega)]
      have harith : g.nodes.length - prev = (g.nodes.length - (prev + 1)) + 1 := by omega
      rw [harith, handleRange]

theorem graphNodesList_eq (g : StackGraph) :
    graphNodesList g = handleRange 1 g.nodes.length := by
  unfold graphNodesList
  rw [graphIterFrom_eq g (nodesLen g) 0 (by omega) (by simp [nodesLen])]
  norm_num

theorem fileNextAux_eq (g : StackGraph) (f : Nat) (fuel : Nat) :
    ∀ i : Nat, nodesLen g ≤ i + fuel →
      fileNextAux g f fuel i
        = (handleRange i (nodesLen g - i)).find? (fun h => matchesFile g f h) := by
  induction fuel with
  | zero =>
    intro i hf
    have : nodesLen g - i = 0 := by omega
    simp [fileNextAux, this, handleRange]
  | succ fu ih =>
    intro i hf
    by_cases hi : i = nodesLen g
    · subst hi
      simp [fileNextAux, handleRange]
    · by_cases hm : matchesFile g f i
      · have hbound := nodeFile_some_bounds g i f ((matchesFile_eq_true_iff g f i).mp hm)
        have hlt : i < nodesLen g := by
          unfold nodesLen; omega
        have harith : nodesLen g - i = (nodesLen g - (i + 1)) + 1 := by omega
        rw [harith, handleRange]
        simp [fileNextAux, hi, hm, List.find?_cons_of_pos]
      · rw [show fileNextAux g f (fu + 1) i = fileNextAux g f fu (i + 1) by
          simp [fileNextAux, hi, hm]]
        rw [ih (i + 1) (by omega)]
        by_cases hlt : i < nodesLen g
        · have harith : nodesLen g - i = (nodesLen g - (i + 1)) + 1 := by omega
          rw [harith, handleRange]
          rw [List.find?_cons_of_neg _ (by simp [hm])]
        · have h0 : nodesLen g - i = 0 := by omega
          have h1 : nodesLen g - (i + 1) = 0 := by omega
          simp [h0, h1, handleRange]

theorem fileNodesNext_eq (g : StackGraph) (f : Nat) (prev : Nat) :
    fileNodesNext g f (some prev)
      = (handleRange (prev + 1) (g.nodes.length - prev)).find? (fun h => matchesFile g f h) := by
  unfold fileNodesNext
  rw [fileNextAux_eq g f (nodesLen g) (prev + 1) (by omega)]
  have : nodesLen g - (prev + 1) = g.nodes.length - prev := by
    unfold nodesLen; omega
  rw [this]

theorem handleRange_filter_of_find?_none (g : StackGraph) (f : Nat) (s n : Nat)
    (hnone : (handleRange s n).find? (fun h => matchesFile g f h) = none) :
    (handleRange s n).filter (fun h => matchesFile g f h) = [] := by
  rw [List.filter_eq_nil_iff]
  intro a ha
  have := List.find?_eq_none.mp hnone a ha
  simpa using this

theorem handleRange_filter_of_find?_some (p : Nat → Bool) :
    ∀ n s h : Nat, (handleRange s n).find? p = some h →
      (handleRange s n).filter p = h :: (handleRange (h + 1) (s + n - (h + 1))).filter p := by
  intro n
  induction n with
  | zero => intro s h hfind; simp [handleRange] at hfind
  | succ m ih =>
    intro s h hfind
    rw [handleRange] at hfind ⊢
    by_cases hp : p s
    · rw [List.find?_cons_of_pos _ hp] at hfind
      have hs : h = s := by injection hfind; omega
      subst hs
      rw [List.filter_cons_of_pos hp]
      have : h + (m + 1) - (h + 1) = m := by omega
      rw [this]
    · rw [List.find?_cons_of_neg _ hp] at hfind
      rw [List.filter_cons_of_neg hp]
      rw [ih (s + 1) h hfind]
      have : s + 1 + m - (h + 1) = s + (m + 1) - (h + 1) := by omega
      rw [this]

theorem fileIterFrom_eq (g : StackGraph) (f : Nat) (fuel : Nat) :
    ∀ prev : Nat, prev ≤ g.nodes.length → g.nodes.length - prev < fuel →
      fileIterFrom g f fuel prev
        = (handleRange (prev + 1) (g.nodes.length - prev)).filter (fun h => matchesFile g f h) := by
  induction fuel with
  | zero => intro prev _ hf; omega
  | succ fu ih =>
    intro prev hle hf
    rw [fileIterFrom]
    cases hres : fileNodesNext g f (some prev) with
    | none =>
      rw [fileNodesNext_eq] at hres
      rw [handleRange_filter_of_find?_none g f _ _ hres]
    | some h =>
      rw [fileNodesNext_eq] at hres
      have hmem := List.mem_of_find?_eq_some hres
      have hbounds := mem_handleRange.mp hmem
      rw [handleRange_filter_of_find?_some _ _ _ _ hres]
      have harith : prev + 1 + (g.nodes.length - prev) - (h + 1) = g.nodes.length - h := by
        omega
      rw [harith]
      show h :: fileIterFrom g f fu h = _
      rw [ih h (by omega) (by omega)]

theorem fileNodesList_eq (g : StackGraph) (f : Nat) :
    fileNodesList g f = (handleRange 1 g.nodes.length).filter (fun h => matchesFile g f h) := by
  unfold fileNodesList
  rw [fileIterFrom_eq g f (nodesLen g) 0 (by omega) (by simp [nodesLen])]
  norm_num

/-! Claim theorems. -/

/-- Claim C1: calling push_scoped_symbol_node or scoped_reference_node with a
scope operand that is not an exported-scope node fails with the
operand-validation runtime error and performs no mutation: the graph is
returned unchanged, so no symbol is interned, no node id is allocated, and
the node and edge counts are unchanged. -/
theorem scope_validation_rejects_without_mutation (g : StackGraph) (f : Nat) (s : String)
    (scope : Nat) (n : Node) (h1 : getNode g scope = some n)
    (h2 : n.is_exported_scope = false) :
    push_scoped_symbol_node g f s scope = (g, Except.error "Can only push exported scope nodes")
    ∧ scoped_reference_node g f s scope = (g, Except.error "Can only push exported scope nodes")
    ∧ (push_scoped_symbol_node g f s scope).1.symbols = g.symbols
    ∧ (push_scoped_symbol_node g f s scope).1.next_local_id = g.next_local_id
    ∧ nodesLen (push_scoped_symbol_node g f s scope).1 = nodesLen g
    ∧ edgeCount (push_scoped_symbol_node g f s scope).1 = edgeCount g
    ∧ (scoped_reference_node g f s scope).1.symbols = g.symbols
    ∧ (scoped_reference_node g f s scope).1.next_local_id = g.next_local_id
    ∧ nodesLen (scoped_reference_node g f s scope).1 = nodesLen g
    ∧ edgeCount (scoped_reference_node g f s scope).1 = edgeCount g := by
  have e1 : push_scoped_symbol_node g f s scope
      = (g, Except.error "Can only push exported scope nodes") := by
    unfold push_scoped_symbol_node
    rw [h1]
    simp [h2]
  have e2 : scoped_reference_node g f s scope
      = (g, Except.error "Can only push exported scope nodes") := by
    unfold scoped_reference_node
    rw [h1]
    simp [h2]
  rw [e1, e2]
  exact ⟨rfl, rfl, rfl, rfl, rfl, rfl, rfl, rfl, rfl, rfl⟩

theorem scope_validation_rejects_without_mutation_witness :
    getNode (internal_scope_node StackGraph.new 0).1 3
        = some { id := { file := some 0, local_id := 0 }, kind := NodeKind.scope false }
    ∧ push_scoped_symbol_node (internal_scope_node StackGraph.new 0).1 0 "x" 3
        = ((internal_scope_node StackGraph.new 0).1,
            Except.error "Can only push exported scope nodes") :=
  ⟨by decide, (scope_validation_rejects_without_mutation (internal_scope_node StackGraph.new 0).1
      0 "x" 3 { id := { file := some 0, local_id := 0 }, kind := NodeKind.scope false }
      (by decide) rfl).1⟩

/-- Claim C3: each step of the whole-graph node iterator computes the next
candidate as the previous handle plus one (starting from the first valid
handle when there is no previous one) and tests exhaustion against the node
count read from the graph at that step; hence after nodes are appended, a
fresh iteration yields the old handles followed by exactly the newly added
ones, and a step that was exhausted against the old graph yields the next
handle against the new one. -/
theorem nodes_iterator_restart (g g' : StackGraph) (newNodes : List Node) (p : Nat)
    (hg : g'.nodes = g.nodes ++ newNodes) (hne : newNodes ≠ [])
    (hexh : graphNodesNext g (some p) = none) :
    graphNodesList g' = graphNodesList g ++ handleRange (nodesLen g) newNodes.length
    ∧ graphNodesNext g' none = some rootHandle
    ∧ graphNodesNext g' (some p) = some (p + 1) := by
  have hp : p = g.nodes.length := by
    by_contra hcon
    have hst : graphNodesNext g (some p) = some (p + 1) := by
      simp only [graphNodesNext, nodesLen]
      rw [if_neg (by omega)]
    rw [hst] at hexh
    exact Option.noConfusion hexh
  have hk : 0 < newNodes.length := List.length_pos.mpr hne
  have hlen : g'.nodes.length = g.nodes.length + newNodes.length := by
    rw [hg, List.length_append]
  refine ⟨?_, ?_, ?_⟩
  · rw [graphNodesList_eq, graphNodesList_eq, hlen, handleRange_append]
    have h11 : nodesLen g = 1 + g.nodes.length := by unfold nodesLen; omega
    rw [h11]
  · simp only [graphNodesNext, nodesLen]
    rw [if_neg (by omega)]
    rfl
  · simp only [graphNodesNext, nodesLen]
    rw [if_neg (by omega)]

theorem nodes_iterator_restart_witness :
    ({ StackGraph.new with nodes := StackGraph.new.nodes ++ [rootNode] } : StackGraph).nodes
        = StackGraph.new.nodes ++ [rootNode]
    ∧ graphNodesNext StackGraph.new (some 2) = none
    ∧ graphNodesList { StackGraph.new with nodes := StackGraph.new.nodes ++ [rootNode] }
        = graphNodesList StackGraph.new ++ handleRange (nodesLen StackGraph.new) 1 :=
  ⟨rfl, by decide,
    (nodes_iterator_restart StackGraph.new
      { StackGraph.new with nodes := StackGraph.new.nodes ++ [rootNode] } [rootNode] 2 rfl
      (by decide) (by decide)).1⟩

/-- Claim C6: enumerating the graph's full node list and keeping only the
handles whose stored file equals the given file yields exactly the file's own
node enumeration, in the same order. -/
theorem graph_nodes_filtered_eq_file_nodes (g : StackGraph) (f : Nat) :
    (graphNodesList g).filter (fun h => nodeFile g h == some f) = fileNodesList g f := by
  rw [graphNodesList_eq, fileNodesList_eq]
  have hfun : (fun h => nodeFile g h == some f) = (fun h => matchesFile g f h) := by
    funext h
    show (nodeFile g h == some f) = matchesFile g f h
    unfold matchesFile
    cases nodeFile g h <;> rfl
  rw [hfun]

/-- Claim C7: add_edge_to and add_edge_from are symmetric — with the roles of
the two nodes swapped they produce the same graph and equal edges (same
source, same sink, same precedence) — and an omitted precedence behaves
exactly like precedence zero, so the inserted edge's precedence is zero. -/
theorem add_edge_direction_commutes (g : StackGraph) (a b : Nat) (p : Int) :
    add_edge_to g a b (some p) = add_edge_from g b a (some p)
    ∧ add_edge_to g a b none = add_edge_to g a b (some 0)
    ∧ add_edge_from g b a none = add_edge_from g b a (some 0)
    ∧ (add_edge_to g a b (some p)).2 = { source := a, sink := b, precedence := p }
    ∧ ((add_edge_to g a b none).2).precedence = 0
    ∧ ((add_edge_from g b a none).2).precedence = 0 :=
  ⟨rfl, rfl, rfl, rfl, rfl, rfl⟩

/-- Claim C9: a mutating entry point invoked while another borrow of the
graph userdata is outstanding fails with the recoverable borrow error
reported to the script and leaves the graph unchanged; the entry points are
total functions of the borrow state and graph, so no aliasing or crash is
representable. -/
theorem borrow_conflict_rejects (st : BorrowState) (g : StackGraph) (a b : Nat)
    (p : Option Int) (name : String) (hb : st ≠ BorrowState.available) :
    add_edge_from_entry st g a b p = (g, Except.error "error borrowing userdata")
    ∧ file_entry st g name = (g, Except.error "error borrowing userdata") := by
  cases st with
  | available => exact absurd rfl hb
  | sharedBorrow c => exact ⟨rfl, rfl⟩
  | exclusiveBorrow => exact ⟨rfl, rfl⟩

theorem borrow_conflict_rejects_witness :
    BorrowState.exclusiveBorrow ≠ BorrowState.available
    ∧ add_edge_from_entry BorrowState.exclusiveBorrow StackGraph.new 3 1 none
        = (StackGraph.new, Except.error "error borrowing userdata") :=
  ⟨by decide, (borrow_conflict_rejects BorrowState.exclusiveBorrow StackGraph.new 3 1 none "f"
      (by decide)).1⟩

/-- Claim C10: every handle yielded by a file's node iteration denotes a node
whose stored file equals that file; in particular the iteration never yields
the root node, the jump-to node, or any other node without a stored file. -/
theorem file_nodes_only_file_members (g : StackGraph) (f h : Nat)
    (hmem : h ∈ fileNodesList g f) :
    nodeFile g h = some f
    ∧ (nodeFile g rootHandle = none → h ≠ rootHandle)
    ∧ (nodeFile g jumpToHandle = none → h ≠ jumpToHandle) := by
  rw [fileNodesList_eq] at hmem
  have hm := (List.mem_filter.mp hmem).2
  have h1 : nodeFile g h = some f := (matchesFile_eq_true_iff g f h).mp hm
  refine ⟨h1, ?_, ?_⟩
  · intro hroot heq
    rw [heq] at h1
    rw [hroot] at h1
    simp at h1
  · intro hjump heq
    rw [heq] at h1
    rw [hjump] at h1
    simp at h1

theorem file_nodes_only_file_members_witness :
    3 ∈ fileNodesList (internal_scope_node StackGraph.new 0).1 0
    ∧ nodeFile (internal_scope_node StackGraph.new 0).1 3 = some 0 :=
  ⟨by decide,
    (file_nodes_only_file_members (internal_scope_node StackGraph.new 0).1 0 3 (by decide)).1⟩

theorem mem_outgoingEdges (g : StackGraph) (h : Nat) (e : Edge) :
    e ∈ outgoingEdges g h ↔ e ∈ g.edges ∧ e.source = h := by
  unfold outgoingEdges
  rw [List.mem_filter]
  simp [beq_iff_eq]

theorem mem_nodes_for_file (g : StackGraph) (f n : Nat) :
    n ∈ nodes_for_file g f ↔ nodeFile g n = some f := by
  unfold nodes_for_file
  rw [List.mem_filter, mem_handleRange]
  constructor
  · rintro ⟨_, hbeq⟩
    exact eq_of_beq hbeq
  · intro hf
    have hb := nodeFile_some_bounds g n f hf
    exact ⟨⟨by omega, by omega⟩, by simp [hf]⟩

theorem mem_fileEdges_file_part (g : StackGraph) (f : Nat) (e : Edge) :
    e ∈ ((nodes_for_file g f).map (fun n => outgoingEdges g n)).flatten
      ↔ e ∈ g.edges ∧ nodeFile g e.source = some f := by
  rw [List.mem_flatten]
  constructor
  · rintro ⟨s, hs, hes⟩
    rw [List.mem_map] at hs
    obtain ⟨n, hn, rfl⟩ := hs
    obtain ⟨hedge, hsrc⟩ := (mem_outgoingEdges g n e).mp hes
    refine ⟨hedge, ?_⟩
    rw [hsrc]
    exact (mem_nodes_for_file g f n).mp hn
  · rintro ⟨hedge, hfile⟩
    refine ⟨outgoingEdges g e.source, ?_, ?_⟩
    · rw [List.mem_map]
      exact ⟨e.source, (mem_nodes_for_file g f e.source).mpr hfile, rfl⟩
    · exact (mem_outgoingEdges g e.source e).mpr ⟨hedge, rfl⟩

/-- Claim C2: the edges of a file are exactly the edges whose source is the
root or the jump-to singleton node and whose sink's stored file equals this
file, together with the edges whose source's stored file equals this file;
an edge into the file's nodes from a non-singleton node of another file is
never returned. -/
theorem file_edges_membership (g : StackGraph) (f : Nat) (e : Edge) :
    (e ∈ fileEdges g f ↔
      (e ∈ g.edges ∧ (e.source = rootHandle ∨ e.source = jumpToHandle)
          ∧ nodeFile g e.sink = some f)
      ∨ (e ∈ g.edges ∧ nodeFile g e.source = some f))
    ∧ (e.source ≠ rootHandle → e.source ≠ jumpToHandle → nodeFile g e.source ≠ some f →
        e ∉ fileEdges g f) := by
  have hiff : e ∈ fileEdges g f ↔
      (e ∈ g.edges ∧ (e.source = rootHandle ∨ e.source = jumpToHandle)
          ∧ nodeFile g e.sink = some f)
      ∨ (e ∈ g.edges ∧ nodeFile g e.source = some f) := by
    unfold fileEdges
    rw [List.mem_append, List.mem_append, List.mem_filter, List.mem_filter,
      mem_outgoingEdges, mem_outgoingEdges, mem_fileEdges_file_part,
      matchesFile_eq_true_iff]
    tauto
  refine ⟨hiff, ?_⟩
  intro hr hj hf hmem
  rcases hiff.mp hmem with ⟨_, hsrc, _⟩ | ⟨_, hsrc⟩
  · rcases hsrc with hcase | hcase
    · exact hr hcase
    · exact hj hcase
  · exact hf hsrc

theorem file_edges_membership_witness :
    ({ source := 1, sink := 3, precedence := 0 } : Edge)
      ∈ fileEdges (add_edge_from (internal_scope_node StackGraph.new 0).1 3 1 none).1 0 :=
  (file_edges_membership (add_edge_from (internal_scope_node StackGraph.new 0).1 3 1 none).1 0
      { source := 1, sink := 3, precedence := 0 }).1.mpr (Or.inl (by decide))

theorem source_info_modify (g : StackGraph) (h : Nat) (upd : SourceInfo → SourceInfo) :
    source_info (modifySourceInfo g h upd) h
      = some (upd ((source_info g h).getD SourceInfo.default)) := by
  show assocGet (assocSet g.source_infos h (upd ((source_info g h).getD SourceInfo.default))) h
      = some (upd ((source_info g h).getD SourceInfo.default))
  exact assocGet_set_self _ _ _

/-- Claim C4 (amended): setting a span, definiens span, syntax type, or debug
entry and reading the same attachment back returns exactly the value set, and
attachments of a node with no metadata record and no debug record read back
as absent; however, once one of span, definiens span, or syntax type is set,
the other two span attachments of the same node read back as the zero-valued
default span (the syntax type still reads back as absent). -/
theorem span_debug_roundtrip (g : StackGraph) (h : Nat) (s t : Span) (name k v : String)
    (hnone : source_info g h = none) (hdbg : node_debug_info g h = none) :
    node_span (set_span g h s) h = some s
    ∧ node_definiens_span (set_definiens_span g h t) h = some t
    ∧ node_syntax_type (set_syntax_type g h name) h = some name
    ∧ node_debug_info_entries (set_debug_info g h k v) h = some [(k, v)]
    ∧ node_span g h = none
    ∧ node_definiens_span g h = none
    ∧ node_syntax_type g h = none
    ∧ node_debug_info_table g h = none
    ∧ node_definiens_span (set_span g h s) h = some Span.default
    ∧ node_syntax_type (set_span g h s) h = none
    ∧ node_span (set_syntax_type g h name) h = some Span.default := by
  have hnone' : assocGet g.source_infos h = none := hnone
  have hdbg' : assocGet g.debug_infos h = none := hdbg
  refine ⟨?_, ?_, ?_, ?_, ?_, ?_, ?_, ?_, ?_, ?_, ?_⟩
  · simp [node_span, set_span, source_info_modify]
  · simp [node_definiens_span, set_definiens_span, source_info_modify]
  · have hsi : source_info (set_syntax_type g h name) h
        = some { (source_info g h).getD SourceInfo.default with
            syntax_type := some (internIn g.strings name).2 } := by
      show source_info (modifySourceInfo (addString g name).1 h _) h = _
      rw [source_info_modify]
      rfl
    simp only [node_syntax_type, hsi]
    show some (getString (set_syntax_type g h name) (internIn g.strings name).2) = some name
    have hg := internIn_getElem g.strings name
    simp [set_syntax_type, addString, modifySourceInfo, getString, hg]
  · have hval := internIn_getElem (internIn g.strings k).1 v
    have hkey := internIn_keeps (internIn g.strings k).1 v (internIn g.strings k).2 k
      (internIn_getElem g.strings k)
    simp [node_debug_info_entries, node_debug_info, set_debug_info, addString,
      assocGet_set_self, hdbg', getString, hkey, hval]
  · simp [node_span, hnone]
  · simp [node_definiens_span, hnone]
  · simp [node_syntax_type, hnone]
  · simp [node_debug_info_table, node_debug_info, hdbg']
  · simp [node_definiens_span, set_span, source_info_modify, hnone, SourceInfo.default]
  · simp [node_syntax_type, set_span, source_info_modify, hnone, SourceInfo.default]
  · have hsi : source_info (set_syntax_type g h name) h
        = some { (source_info g h).getD SourceInfo.default with
            syntax_type := some (internIn g.strings name).2 } := by
      show source_info (modifySourceInfo (addString g name).1 h _) h = _
      rw [source_info_modify]
      rfl
    simp [node_span, hsi, hnone, SourceInfo.default]

/-- Claim C4 counterexample: after setting only the syntax type of a node,
the never-set span reads back as the zero-valued default span rather than as
the absent marker. -/
theorem span_absent_after_sibling_set_counterexample :
    node_span (set_syntax_type StackGraph.new 1 "t") 1 = some Span.default
    ∧ node_span (set_syntax_type StackGraph.new 1 "t") 1 ≠ none := by
  refine ⟨rfl, ?_⟩
  rw [show node_span (set_syntax_type StackGraph.new 1 "t") 1 = some Span.default from rfl]
  simp

theorem span_debug_roundtrip_witness :
    source_info StackGraph.new 1 = none
    ∧ node_debug_info StackGraph.new 1 = none
    ∧ node_span (set_span StackGraph.new 1 Span.default) 1 = some Span.default
    ∧ node_syntax_type (set_syntax_type StackGraph.new 1 "t") 1 = some "t"
    ∧ node_debug_info_entries (set_debug_info StackGraph.new 1 "k" "v") 1 = some [("k", "v")] :=
  ⟨rfl, rfl,
    (span_debug_roundtrip StackGraph.new 1 Span.default Span.default "t" "k" "v" rfl rfl).1,
    (span_debug_roundtrip StackGraph.new 1 Span.default Span.default "t" "k" "v" rfl rfl).2.2.1,
    (span_debug_roundtrip StackGraph.new 1 Span.default Span.default "t" "k" "v" rfl
      rfl).2.2.2.1⟩

theorem lookupStr_tableSet (t : List (String × String)) (k v k' : String) :
    lookupStr (tableSet t k v) k' = if k' = k then some v else lookupStr t k' := by
  induction t with
  | nil =>
    show (if k = k' then some v else none) = if k' = k then some v else none
    by_cases h : k = k'
    · rw [if_pos h, if_pos h.symm]
    · rw [if_neg h, if_neg (fun hh => h hh.symm)]
  | cons p rest ih =>
    obtain ⟨a, b⟩ := p
    show lookupStr (if a = k then (k, v) :: rest else (a, b) :: tableSet rest k v) k'
        = if k' = k then some v else lookupStr ((a, b) :: rest) k'
    by_cases ha : a = k
    · rw [if_pos ha]
      show (if k = k' then some v else lookupStr rest k')
          = if k' = k then some v else lookupStr ((a, b) :: rest) k'
      by_cases hk : k' = k
      · rw [if_pos hk.symm, if_pos hk]
      · rw [if_neg (fun hh => hk hh.symm), if_neg hk]
        show lookupStr rest k' = if a = k' then some b else lookupStr rest k'
        rw [if_neg (fun hh => hk (hh.symm.trans ha))]
    · rw [if_neg ha]
      show (if a = k' then some b else lookupStr (tableSet rest k v) k')
          = if k' = k then some v else lookupStr ((a, b) :: rest) k'
      by_cases hak : a = k'
      · rw [if_pos hak]
        have hkk : ¬ k' = k := fun hh => ha (hak.trans hh)
        rw [if_neg hkk]
        show some b = if a = k' then some b else lookupStr rest k'
        rw [if_pos hak]
      · rw [if_neg hak, ih]
        by_cases hk : k' = k
        · rw [if_pos hk, if_pos hk]
        · rw [if_neg hk, if_neg hk]
          show lookupStr rest k' = if a = k' then some b else lookupStr rest k'
          rw [if_neg hak]

theorem lookupStr_foldl_tableSet (es : List (String × String)) :
    ∀ t : List (String × String), ∀ k : String,
      lookupStr (es.foldl (fun acc p => tableSet acc p.1 p.2) t) k
        = match lastVal es k with
          | some v => some v
          | none => lookupStr t k := by
  induction es with
  | nil => intro t k; simp [lastVal]
  | cons p rest ih =>
    intro t k
    obtain ⟨pk, pv⟩ := p
    rw [List.foldl_cons]
    rw [ih (tableSet t pk pv) k]
    cases hl : lastVal rest k with
    | some v => simp [lastVal, hl]
    | none =>
      simp only [lastVal, hl]
      rw [lookupStr_tableSet]
      by_cases hk : k = pk
      · subst hk
        simp
      · rw [if_neg hk, if_neg (fun hh => hk hh.symm)]

/-- Claim C5 (amended): the stored debug info is an ordered multimap — each
set_debug_info call appends one entry, preserving insertion order and keeping
repeated keys as distinct stored entries — but reading debug_info() back
returns a table that maps each distinct key to the value of its most recently
added entry, collapsing repeated keys. -/
theorem debug_info_multimap (g : StackGraph) (h : Nat) (k v : String)
    (hwf : ∀ p ∈ (node_debug_info g h).getD [],
      p.1 < g.strings.length ∧ p.2 < g.strings.length) :
    node_debug_info_entries (set_debug_info g h k v) h
      = some (((node_debug_info_entries g h).getD []) ++ [(k, v)])
    ∧ (∀ tbl, node_debug_info_table g h = some tbl →
        ∀ k', lookupStr tbl k' = lastVal ((node_debug_info_entries g h).getD []) k') := by
  constructor
  · have hstr : ∀ (i : Nat) (x : String), g.strings[i]? = some x →
        ((internIn (internIn g.strings k).1 v).1)[i]? = some x := by
      intro i x hx
      exact internIn_keeps _ v i x (internIn_keeps _ k i x hx)
    have hgetS : ∀ i, i < g.strings.length →
        getString (set_debug_info g h k v) i = getString g i := by
      intro i hi
      cases hx : g.strings[i]? with
      | none =>
        have := List.getElem?_eq_none_iff.mp hx
        omega
      | some x =>
        have hx2 := hstr i x hx
        show (((internIn (internIn g.strings k).1 v).1)[i]?).getD "" = getString g i
        rw [hx2]
        show x = getString g i
        rw [getString, hx]
        rfl
    have hget : ∀ p ∈ (node_debug_info g h).getD [],
        (fun q : Nat × Nat => (getString (set_debug_info g h k v) q.1,
          getString (set_debug_info g h k v) q.2)) p
          = (fun q : Nat × Nat => (getString g q.1, getString g q.2)) p := by
      intro p hp
      obtain ⟨h1, h2⟩ := hwf p hp
      simp only [hgetS p.1 h1, hgetS p.2 h2]
    have hkey : getString (set_debug_info g h k v) (internIn g.strings k).2 = k := by
      have hx := internIn_keeps (internIn g.strings k).1 v (internIn g.strings k).2 k
        (internIn_getElem g.strings k)
      show (((internIn (internIn g.strings k).1 v).1)[(internIn g.strings k).2]?).getD "" = k
      rw [hx]
      rfl
    have hval : getString (set_debug_info g h k v) (internIn (internIn g.strings k).1 v).2
        = v := by
      have hx := internIn_getElem (internIn g.strings k).1 v
      show (((internIn (internIn g.strings k).1 v).1)[(internIn (internIn g.strings k).1
          v).2]?).getD "" = v
      rw [hx]
      rfl
    have hreduce : node_debug_info_entries (set_debug_info g h k v) h
        = some ((((node_debug_info g h).getD []) ++
            [((internIn g.strings k).2, (internIn (internIn g.strings k).1 v).2)]).map
            (fun q : Nat × Nat => (getString (set_debug_info g h k v) q.1,
              getString (set_debug_info g h k v) q.2))) := by
      show ((assocGet (assocSet g.debug_infos h (((assocGet g.debug_infos h).getD []) ++
          [((internIn g.strings k).2, (internIn (internIn g.strings k).1 v).2)])) h).map _) = _
      rw [assocGet_set_self]
      rfl
    rw [hreduce, List.map_append, List.map_congr_left hget]
    have hold : (node_debug_info_entries g h).getD []
        = ((node_debug_info g h).getD []).map
            (fun q : Nat × Nat => (getString g q.1, getString g q.2)) := by
      cases hx : node_debug_info g h <;> simp [node_debug_info_entries, hx]
    rw [hold]
    simp [hkey, hval]
  · intro tbl htbl k'
    unfold node_debug_info_table at htbl
    cases hraw : node_debug_info g h with
    | none =>
      rw [hraw] at htbl
      exact Option.noConfusion htbl
    | some es =>
      rw [hraw] at htbl
      injection htbl with htbl'
      have hmap : es.foldl (fun acc p => tableSet acc (getString g p.1) (getString g p.2)) []
          = (es.map (fun p : Nat × Nat => (getString g p.1, getString g p.2))).foldl
              (fun acc p => tableSet acc p.1 p.2) [] := by
        rw [List.foldl_map]
      have hold : (node_debug_info_entries g h).getD []
          = es.map (fun q : Nat × Nat => (getString g q.1, getString g q.2)) := by
        simp [node_debug_info_entries, hraw]
      rw [← htbl', hmap, hold, lookupStr_foldl_tableSet]
      cases hlv : lastVal (es.map (fun q : Nat × Nat => (getString g q.1, getString g q.2))) k'
        <;> simp [lookupStr]

/-- Claim C5 counterexample: two entries with the same key are both stored,
in order, but the debug_info() reader returns a table holding only one entry
for that key — the most recently added value — not both entries. -/
theorem debug_info_duplicate_key_counterexample :
    node_debug_info_entries (set_debug_info (set_debug_info StackGraph.new 1 "k" "a") 1 "k" "b") 1
      = some [("k", "a"), ("k", "b")]
    ∧ node_debug_info_table (set_debug_info (set_debug_info StackGraph.new 1 "k" "a") 1 "k" "b") 1
      = some [("k", "b")] := by
  constructor
  · rfl
  · rfl

theorem debug_info_multimap_witness :
    (∀ p ∈ (node_debug_info (set_debug_info StackGraph.new 1 "k" "a") 1).getD [],
      p.1 < (set_debug_info StackGraph.new 1 "k" "a").strings.length
        ∧ p.2 < (set_debug_info StackGraph.new 1 "k" "a").strings.length)
    ∧ node_debug_info_entries
        (set_debug_info (set_debug_info StackGraph.new 1 "k" "a") 1 "k" "b") 1
      = some (((node_debug_info_entries (set_debug_info StackGraph.new 1 "k" "a") 1).getD [])
          ++ [("k", "b")]) :=
  ⟨by decide,
    (debug_info_multimap (set_debug_info StackGraph.new 1 "k" "a") 1 "k" "b" (by decide)).1⟩

theorem strData_append (a b : String) : (a ++ b).data = a.data ++ b.data := by
  cases a; cases b; rfl

theorem strData_empty : ("" : String).data = [] := rfl

theorem strEq_of_data (a b : String) (h : a.data = b.data) : a = b := by
  cases a; cases b; simp_all

theorem strPop_concat (s : String) : strPop (s ++ "]") = s := by
  show String.mk (s ++ "]").data.dropLast = s
  rw [strData_append]
  show String.mk (s.data ++ [']']).dropLast = s
  cases s; simp

/-- Claim C8: the rendering of a node is its display form with, inserted
before the closing bracket, the syntax type in parentheses when set, the
span (after the word at) as line:column-line:column when it differs from the
default span, and the definiens span with a def marker when it differs from
the default span; each of the three suffixes is present or absent
independently of the others. -/
theorem node_tostring_decomposition (g : StackGraph) (h : Nat) :
    nodeToString g h
      = displayNodeBody g h
        ++ (match source_info g h with
            | none => ""
            | some si =>
              match si.syntax_type with
              | none => ""
              | some st => " (" ++ getString g st ++ ")")
        ++ (match source_info g h with
            | none => ""
            | some si => if si.span = Span.default then "" else " at " ++ spanString si.span)
        ++ (match source_info g h with
            | none => ""
            | some si =>
              if si.definiens_span = Span.default then ""
              else " def " ++ spanString si.definiens_span)
        ++ "]" := by
  unfold nodeToString
  cases hsi : source_info g h with
  | none =>
    show displayNode g h = _
    unfold displayNode
    apply strEq_of_data
    simp [strData_append, strData_empty]
  | some si =>
    have hpop : strPop (displayNode g h) = displayNodeBody g h :=
      strPop_concat (displayNodeBody g h)
    cases hst : si.syntax_type <;>
      by_cases hsp : si.span = Span.default <;>
        by_cases hdef : si.definiens_span = Span.default
    all_goals
      simp only [hst, hpop]
      apply strEq_of_data
      simp [strData_append, strData_empty, hsp, hdef]
